import Mathlib

/-!
Verification of the ASTERIX decoder (src/asterix.py) against its
natural-language specification.

Shallow embedding conventions:
* A byte stream is a `List Nat` of octet values; `stream.read(n)` returns
  `take n` and leaves `drop n` (a file read returns at most `n` bytes and at
  end of input returns fewer, possibly zero).
* Python dicts of decoded fields are association lists with
  overwrite-on-update semantics (`dictUpdate`).
* Python exceptions (including `struct.error` and `KeyError`) abort the whole
  decode; they are modelled by `Except String`.
* Python floats are modelled exactly by rationals; the operations the decoder
  performs on them (`* 1.0/(1 << rshift)`, `* factor`) are stated over `ℚ`.
* The schema document is already loaded (schema loading is outside the core
  per the spec); its nodes are `Schema` values whose attributes carry the
  already-converted values of the XML attributes.
* The two `while True:` loops of `parse_asterix` can run forever on
  pathological schemas (a record decoder that consumes no bytes), so the
  embedding gives `parse_asterix` explicit fuel; running out of fuel is the
  distinguished error "RecursionError", which never occurs on claims below
  (they either supply concrete fuel or quantify over it).
-/

namespace Asterix

/-- Python values produced by the decoder: ints, floats (as exact rationals),
strings, dicts (association lists) and lists. -/
inductive PyVal where
  | int (n : Nat)
  | float (q : ℚ)
  | str (s : String)
  | dict (entries : List (String × PyVal))
  | list (items : List PyVal)

/-- The XML attributes of a schema node that the decoder reads, already
converted from their string form (schema loading is external to the core). -/
structure Attrs where
  id : Option String
  octets : Option Nat
  rshift : Option Nat
  factor : Option ℚ
  failure_info : Option String
deriving DecidableEq

/-- A schema node: an XML element with a namespaced tag, attributes and
ordered element children (`schema.iterchildren(tag='*')`). -/
inductive Schema where
  | mk (tag : String) (attrs : Attrs) (children : List Schema)

/-- The element tag of a schema node. -/
def Schema.tag : Schema → String
  | .mk t _ _ => t

/-- The attributes of a schema node. -/
def Schema.attrs : Schema → Attrs
  | .mk _ a _ => a

/-- The ordered element children of a schema node. -/
def Schema.children : Schema → List Schema
  | .mk _ _ c => c

/- The namespaced tags used as keys of the `parsers` table in `parse_any`;
XML's Clark notation puts the namespace URI in braces before the local name. -/

/-- Tag of the root element. -/
def tagSchema : String := "\x7bhttp://www.profv.de/asterix\x7dschema"

/-- Tag of presence-bitmap (FSPEC) nodes. -/
def tagFspec : String := "\x7bhttp://www.profv.de/asterix\x7dfspec"

/-- Tag of extension-bitmap (FX) nodes. -/
def tagFx : String := "\x7bhttp://www.profv.de/asterix\x7dfx"

/-- Tag of composite nodes. -/
def tagMulti : String := "\x7bhttp://www.profv.de/asterix\x7dmulti"

/-- Tag of list nodes. -/
def tagList : String := "\x7bhttp://www.profv.de/asterix\x7dlist"

/-- Tag of numeric nodes. -/
def tagNumber : String := "\x7bhttp://www.profv.de/asterix\x7dnumber"

/-- Tag of boolean nodes. -/
def tagBool : String := "\x7bhttp://www.profv.de/asterix\x7dbool"

/-- Tag of enum nodes. -/
def tagEnum : String := "\x7bhttp://www.profv.de/asterix\x7denum"

/-- Tag of unknown (placeholder) nodes. -/
def tagUnknown : String := "\x7bhttp://www.profv.de/asterix\x7dunknown"

/-- `d[k] = v` on an association list: overwrite the existing binding of `k`
or append a new one (Python dict assignment). -/
def dictInsert (d : List (String × PyVal)) (k : String) (v : PyVal) :
    List (String × PyVal) :=
  if d.any (fun p => p.1 == k) then
    d.map (fun p => if p.1 == k then (k, v) else p)
  else d ++ [(k, v)]

/-- `d.update(e)` on association lists: insert every binding of `e` into `d`,
later bindings overwriting earlier ones (Python `dict.update`). -/
def dictUpdate (d e : List (String × PyVal)) : List (String × PyVal) :=
  e.foldl (fun acc p => dictInsert acc p.1 p.2) d

/-- `result.update(x)` requires `x` to be a mapping; sub-decoders always
return dicts, anything else is a Python `TypeError`. -/
def asDict : PyVal → Except String (List (String × PyVal))
  | .dict d => .ok d
  | _ => .error "TypeError: update expected a mapping"

/-- Big-endian unsigned integer of a byte string, as computed at line 130 of
the source: `sum(ord(c) << (i * 8) for i, c in enumerate(reversed(data)))`. -/
def bytesToNat (data : List Nat) : Nat :=
  ((data.reverse.enum).map (fun p => p.2 <<< (p.1 * 8))).sum

/-- `%02x`: lowercase hexadecimal representation, left-padded to two digits. -/
def byteHex (b : Nat) : String :=
  let s : String := ⟨Nat.toDigits 16 b⟩
  if s.length = 1 then "0" ++ s else s

/-- `' '.join('%02x' % ord(octet) for octet in data)`. -/
def hexdump (data : List Nat) : String :=
  " ".intercalate (data.map byteHex)

/-- `'cat%03d' % cat`: the category key, zero-padded to three digits. -/
def catKey (cat : Nat) : String :=
  "cat" ++ (if cat < 10 then "00" else if cat < 100 then "0" else "") ++
    toString cat

/-- `schema.find('*[@id="cat%03d"]' % cat)`: first immediate child whose `id`
attribute equals the category key. -/
def findCat (schema : Schema) (cat : Nat) : Option Schema :=
  schema.children.find? (fun c => c.attrs.id == some (catKey cat))

/-- Presence bits of one FSPEC/FX octet: bits 7 down to 1, bit 7 first
(lines 81-83 and 103-105 of the source: `fspec_bits[i] for i in
xrange(7, 0, -1)` where `fspec_bits[i] = (octet >> i) & 1`). -/
def bits71 (octet : Nat) : List Nat :=
  (List.range 7).map (fun k => (octet >>> (7 - k)) &&& 1)

/-- The octet-reading loop shared verbatim by `parse_fspec` (lines 79-85) and
`parse_fx` (lines 101-107): read one octet, append its bits 7..1 to the bit
sequence, continue while bit 0 (the extension flag) is 1.  Reading at end of
input is a `struct.error` (fatal). -/
def read_bitmap : List Nat → Except String (List Nat × List Nat)
  | [] => .error "struct.error: unpack requires a string argument of length 1"
  | octet :: rest =>
    if octet &&& 1 = 0 then .ok (bits71 octet, rest)
    else
      match read_bitmap rest with
      | .error e => .error e
      | .ok (more, rest₁) => .ok (bits71 octet ++ more, rest₁)

/-- Lines 92-94 of the source: `for i in xrange(len(schema_children),
len(fspec)): if fspec[i] == 1: raise Exception('Unknown FRN %r', i + 1)`. -/
def fspec_extra_check (fspec : List Nat) (i : Nat) : Except String Unit :=
  if h : i < fspec.length then
    if fspec.getD i 0 = 1 then .error ("Unknown FRN " ++ toString (i + 1))
    else fspec_extra_check fspec (i + 1)
  else .ok ()
termination_by fspec.length - i

/-- `parse_number` (lines 126-140): read exactly `octets` bytes, big-endian
unsigned; then `number *= 1.0/(1 << rshift)` if `rshift` is present, then
`number *= factor` if `factor` is present.  A missing `octets` or `id`
attribute is a Python `KeyError`. -/
def parse_number (schema : Schema) (st : List Nat) :
    Except String (PyVal × List Nat) :=
  match schema.attrs.octets with
  | none => .error "KeyError: octets"
  | some octets =>
    let data := st.take octets
    let number := bytesToNat data
    let value : PyVal :=
      match schema.attrs.rshift, schema.attrs.factor with
      | none, none => .int number
      | some r, none => .float ((number : ℚ) * (1 / 2 ^ r))
      | none, some f => .float ((number : ℚ) * f)
      | some r, some f => .float ((number : ℚ) * (1 / 2 ^ r) * f)
    match schema.attrs.id with
    | none => .error "KeyError: id"
    | some nm => .ok (.dict [(nm, value)], st.drop octets)

/-- `parse_unknown` (lines 142-152): a node with `failure_info` fails
immediately, before reading anything; otherwise read exactly `octets` bytes
and return their lowercase space-separated hex dump tagged "UNKNOWN ". -/
def parse_unknown (schema : Schema) (st : List Nat) :
    Except String (PyVal × List Nat) :=
  match schema.attrs.failure_info with
  | some info => .error ("Unknown item of unknown size: " ++ info)
  | none =>
    match schema.attrs.octets with
    | none => .error "KeyError: octets"
    | some octets =>
      match schema.attrs.id with
      | none => .error "KeyError: id"
      | some nm =>
        .ok (.dict [(nm, .str ("UNKNOWN " ++ hexdump (st.take octets)))],
          st.drop octets)

/-- `parse_fx` (lines 98-116): read the FX bitmap, render it as a string of
'0'/'1' characters, return it tagged "UNKNOWN FX " (the loop over children
at lines 110-111 does nothing). -/
def parse_fx (schema : Schema) (st : List Nat) :
    Except String (PyVal × List Nat) :=
  match read_bitmap st with
  | .error e => .error e
  | .ok (fx, st₁) =>
    match schema.attrs.id with
    | none => .error "KeyError: id"
    | some nm =>
      .ok (.dict [(nm, .str ("UNKNOWN FX " ++ String.join (fx.map toString)))],
        st₁)

/-- The data-block value `{'cat': cat, 'records': records}` (lines 70-73). -/
def blockVal (cat : Nat) (records : List PyVal) : PyVal :=
  .dict [("cat", .int cat), ("records", .list records)]

theorem Schema.sizeOf_children_lt (s : Schema) : sizeOf s.children < sizeOf s := by
  cases s with
  | mk t a c => simp [Schema.children]

theorem findCat_sizeOf_lt {s : Schema} {cat : Nat} {sub : Schema}
    (h : findCat s cat = some sub) : sizeOf sub < sizeOf s := by
  have hmem : sub ∈ s.children := List.mem_of_find?_eq_some h
  exact lt_trans (List.sizeOf_lt_of_mem hmem) (Schema.sizeOf_children_lt s)

mutual

/-- `parse_any` (lines 36-48): dispatch on the node's tag through the
`parsers` table; an unregistered tag is a Python `KeyError` (fatal). -/
def parse_any (fuel : Nat) (schema : Schema) (st : List Nat) :
    Except String (PyVal × List Nat) :=
  if schema.tag = tagSchema then
    match parse_asterix fuel schema st with
    | .error e => .error e
    | .ok (blocks, st₁) => .ok (.list blocks, st₁)
  else if schema.tag = tagFspec then parse_fspec fuel schema st
  else if schema.tag = tagFx then parse_fx schema st
  else if schema.tag = tagMulti then parse_multi fuel schema st
  else if schema.tag = tagList then parse_unknown schema st
  else if schema.tag = tagNumber then parse_number schema st
  else if schema.tag = tagBool then parse_unknown schema st
  else if schema.tag = tagEnum then parse_unknown schema st
  else if schema.tag = tagUnknown then parse_unknown schema st
  else .error "KeyError: unregistered schema tag"
termination_by (fuel, sizeOf schema, 3)
decreasing_by
  all_goals simp_wf
  all_goals
    first
    | exact Prod.Lex.left _ _ (by omega)
    | exact Prod.Lex.right _ (Prod.Lex.right _ (by omega))
    | exact Prod.Lex.right _ (Prod.Lex.left _ _ (findCat_sizeOf_lt hfind))
    | exact Prod.Lex.right _ (Prod.Lex.left _ _ (Schema.sizeOf_children_lt _))
    | exact Prod.Lex.right _ (Prod.Lex.left _ _ (by omega))

/-- `parse_asterix` (lines 50-74), the `while True:` block loop: read one
category byte (zero bytes read ends the decode, returning the blocks so
far), look up the category, read the two length bytes, decode records until
the declared length is covered, check it was met exactly, and loop. -/
def parse_asterix (fuel : Nat) (schema : Schema) (st : List Nat) :
    Except String (List PyVal × List Nat) :=
  match fuel with
  | 0 => .error "RecursionError"
  | fuel₁ + 1 =>
    match parse_asterix_block fuel₁ schema st with
    | .error e => .error e
    | .ok none => .ok ([], st)
    | .ok (some (blk, st₁)) =>
      match parse_asterix fuel₁ schema st₁ with
      | .error e => .error e
      | .ok (blks, st₂) => .ok (blk :: blks, st₂)
termination_by (fuel, sizeOf schema, 2)
decreasing_by
  all_goals simp_wf
  all_goals
    first
    | exact Prod.Lex.left _ _ (by omega)
    | exact Prod.Lex.right _ (Prod.Lex.right _ (by omega))
    | exact Prod.Lex.right _ (Prod.Lex.left _ _ (findCat_sizeOf_lt hfind))
    | exact Prod.Lex.right _ (Prod.Lex.left _ _ (Schema.sizeOf_children_lt _))
    | exact Prod.Lex.right _ (Prod.Lex.left _ _ (by omega))

/-- One iteration of the `parse_asterix` block loop (lines 55-73).  `none`
means zero bytes were available for the category tag (clean end).  The
fresh `CountingIO` has counted 3 bytes (category + length) when the record
loop starts, so the loop runs `while counting_stream.total < length` with
the counter threaded explicitly, and afterwards the counter must equal
`length` exactly. -/
def parse_asterix_block (fuel : Nat) (schema : Schema) (st : List Nat) :
    Except String (Option (PyVal × List Nat)) :=
  match st with
  | [] => .ok none
  | cat :: rest =>
    match hfind : findCat schema cat with
    | none =>
      .error ("Unable to parse data block with unknown category " ++
        toString cat)
    | some sub =>
      match rest with
      | b1 :: b2 :: body =>
        match parse_asterix_records fuel sub body 3 (b1 * 256 + b2) with
        | .error e => .error e
        | .ok (records, st₃, total) =>
          if total = b1 * 256 + b2 then .ok (some (blockVal cat records, st₃))
          else
            .error ("Unexpected length of data block: parsed " ++
              toString total ++ ", expected " ++ toString (b1 * 256 + b2))
      | _ => .error "struct.error: unpack requires a string argument of length 2"
termination_by (fuel, sizeOf schema, 1)
decreasing_by
  all_goals simp_wf
  all_goals
    first
    | exact Prod.Lex.left _ _ (by omega)
    | exact Prod.Lex.right _ (Prod.Lex.right _ (by omega))
    | exact Prod.Lex.right _ (Prod.Lex.left _ _ (findCat_sizeOf_lt hfind))
    | exact Prod.Lex.right _ (Prod.Lex.left _ _ (Schema.sizeOf_children_lt _))
    | exact Prod.Lex.right _ (Prod.Lex.left _ _ (by omega))

/-- The record loop of `parse_asterix` (lines 65-67):
`while counting_stream.total < length: records.append(parse_any(...))`.
`total` is the `CountingIO` counter: each `read` adds the number of bytes it
returned, which in the list model is the shrinkage of the stream, so after a
record the counter grows by `st.length - st₁.length`. -/
def parse_asterix_records (fuel : Nat) (sub : Schema) (st : List Nat)
    (total : Nat) (length : Nat) :
    Except String (List PyVal × List Nat × Nat) :=
  if total < length then
    match fuel with
    | 0 => .error "RecursionError"
    | fuel₁ + 1 =>
      match parse_any fuel₁ sub st with
      | .error e => .error e
      | .ok (r, st₁) =>
        match parse_asterix_records fuel₁ sub st₁
            (total + (st.length - st₁.length)) length with
        | .error e => .error e
        | .ok (recs, st₂, total₂) => .ok (r :: recs, st₂, total₂)
  else .ok ([], st, total)
termination_by (fuel, sizeOf sub, 4)
decreasing_by
  all_goals simp_wf
  all_goals
    first
    | exact Prod.Lex.left _ _ (by omega)
    | exact Prod.Lex.right _ (Prod.Lex.right _ (by omega))
    | exact Prod.Lex.right _ (Prod.Lex.left _ _ (findCat_sizeOf_lt hfind))
    | exact Prod.Lex.right _ (Prod.Lex.left _ _ (Schema.sizeOf_children_lt _))
    | exact Prod.Lex.right _ (Prod.Lex.left _ _ (by omega))

/-- `parse_fspec` (lines 76-96): read the presence bitmap, decode the
children whose presence bit is 1, then reject any set bit beyond the number
of children. -/
def parse_fspec (fuel : Nat) (schema : Schema) (st : List Nat) :
    Except String (PyVal × List Nat) :=
  match read_bitmap st with
  | .error e => .error e
  | .ok (fspec, st₁) =>
    match fspec_children_loop fuel schema.children fspec 0 [] st₁ with
    | .error e => .error e
    | .ok (result, st₂) =>
      match fspec_extra_check fspec schema.children.length with
      | .error e => .error e
      | .ok _ => .ok (.dict result, st₂)
termination_by (fuel, sizeOf schema, 2)
decreasing_by
  all_goals simp_wf
  all_goals
    first
    | exact Prod.Lex.left _ _ (by omega)
    | exact Prod.Lex.right _ (Prod.Lex.right _ (by omega))
    | exact Prod.Lex.right _ (Prod.Lex.left _ _ (findCat_sizeOf_lt hfind))
    | exact Prod.Lex.right _ (Prod.Lex.left _ _ (Schema.sizeOf_children_lt _))
    | exact Prod.Lex.right _ (Prod.Lex.left _ _ (by omega))

/-- The child loop of `parse_fspec` (lines 88-91): for the child at position
`i`, if `i < len(fspec) and fspec[i] == 1`, decode it through the dispatcher
and merge the resulting fields. -/
def fspec_children_loop (fuel : Nat) (children : List Schema)
    (fspec : List Nat) (i : Nat) (result : List (String × PyVal))
    (st : List Nat) : Except String (List (String × PyVal) × List Nat) :=
  match children with
  | [] => .ok (result, st)
  | c :: cs =>
    if i < fspec.length ∧ fspec.getD i 0 = 1 then
      match parse_any fuel c st with
      | .error e => .error e
      | .ok (v, st₁) =>
        match asDict v with
        | .error e => .error e
        | .ok d => fspec_children_loop fuel cs fspec (i + 1) (dictUpdate result d) st₁
    else fspec_children_loop fuel cs fspec (i + 1) result st
termination_by (fuel, sizeOf children, 4)
decreasing_by
  all_goals simp_wf
  all_goals
    first
    | exact Prod.Lex.left _ _ (by omega)
    | exact Prod.Lex.right _ (Prod.Lex.right _ (by omega))
    | exact Prod.Lex.right _ (Prod.Lex.left _ _ (findCat_sizeOf_lt hfind))
    | exact Prod.Lex.right _ (Prod.Lex.left _ _ (Schema.sizeOf_children_lt _))
    | exact Prod.Lex.right _ (Prod.Lex.left _ _ (by omega))

/-- `parse_multi` (lines 118-124): decode every child in order and merge the
results. -/
def parse_multi (fuel : Nat) (schema : Schema) (st : List Nat) :
    Except String (PyVal × List Nat) :=
  multi_loop fuel schema.children [] st
termination_by (fuel, sizeOf schema, 2)
decreasing_by
  all_goals simp_wf
  all_goals
    first
    | exact Prod.Lex.left _ _ (by omega)
    | exact Prod.Lex.right _ (Prod.Lex.right _ (by omega))
    | exact Prod.Lex.right _ (Prod.Lex.left _ _ (findCat_sizeOf_lt hfind))
    | exact Prod.Lex.right _ (Prod.Lex.left _ _ (Schema.sizeOf_children_lt _))
    | exact Prod.Lex.right _ (Prod.Lex.left _ _ (by omega))

/-- The child loop of `parse_multi` (lines 121-122). -/
def multi_loop (fuel : Nat) (children : List Schema)
    (result : List (String × PyVal)) (st : List Nat) :
    Except String (PyVal × List Nat) :=
  match children with
  | [] => .ok (.dict result, st)
  | c :: cs =>
    match parse_any fuel c st with
    | .error e => .error e
    | .ok (v, st₁) =>
      match asDict v with
      | .error e => .error e
      | .ok d => multi_loop fuel cs (dictUpdate result d) st₁
termination_by (fuel, sizeOf children, 4)
decreasing_by
  all_goals simp_wf
  all_goals
    first
    | exact Prod.Lex.left _ _ (by omega)
    | exact Prod.Lex.right _ (Prod.Lex.right _ (by omega))
    | exact Prod.Lex.right _ (Prod.Lex.left _ _ (findCat_sizeOf_lt hfind))
    | exact Prod.Lex.right _ (Prod.Lex.left _ _ (Schema.sizeOf_children_lt _))
    | exact Prod.Lex.right _ (Prod.Lex.left _ _ (by omega))

end

/-!
Stream-consumption lemmas: every decoder only ever removes bytes from the
stream (`read` returns a suffix), and the `CountingIO` counter of the record
loop equals exactly the number of bytes removed.
-/

theorem read_bitmap_length_le :
    ∀ st bits st₁, read_bitmap st = .ok (bits, st₁) → st₁.length ≤ st.length := by
  intro st
  induction st with
  | nil => intro bits st₁ h; simp [read_bitmap] at h
  | cons octet rest ih =>
    intro bits st₁ h
    by_cases hc : octet &&& 1 = 0
    · simp [read_bitmap, hc] at h
      obtain ⟨-, h₂⟩ := h
      subst h₂
      simp
    · simp only [read_bitmap, hc, if_false] at h
      cases hrb : read_bitmap rest with
      | error e => rw [hrb] at h; simp at h
      | ok p =>
        obtain ⟨more, rest₁⟩ := p
        rw [hrb] at h
        simp at h
        obtain ⟨-, h₂⟩ := h
        subst h₂
        calc rest₁.length ≤ rest.length := ih more rest₁ hrb
          _ ≤ (octet :: rest).length := by simp

theorem parse_number_length_le {schema : Schema} {st : List Nat} {v : PyVal}
    {st₁ : List Nat} (h : parse_number schema st = .ok (v, st₁)) :
    st₁.length ≤ st.length := by
  rcases hoc : schema.attrs.octets with - | n
  · simp [parse_number, hoc] at h
  · rcases hid : schema.attrs.id with - | nm
    · simp [parse_number, hoc, hid] at h
    · simp [parse_number, hoc, hid] at h
      obtain ⟨-, h₂⟩ := h
      subst h₂
      simp

theorem parse_unknown_length_le {schema : Schema} {st : List Nat} {v : PyVal}
    {st₁ : List Nat} (h : parse_unknown schema st = .ok (v, st₁)) :
    st₁.length ≤ st.length := by
  rcases hfi : schema.attrs.failure_info with - | info
  · rcases hoc : schema.attrs.octets with - | n
    · simp [parse_unknown, hfi, hoc] at h
    · rcases hid : schema.attrs.id with - | nm
      · simp [parse_unknown, hfi, hoc, hid] at h
      · simp [parse_unknown, hfi, hoc, hid] at h
        obtain ⟨-, h₂⟩ := h
        subst h₂
        simp
  · simp [parse_unknown, hfi] at h

theorem parse_fx_length_le {schema : Schema} {st : List Nat} {v : PyVal}
    {st₁ : List Nat} (h : parse_fx schema st = .ok (v, st₁)) :
    st₁.length ≤ st.length := by
  cases hrb : read_bitmap st with
  | error e => simp [parse_fx, hrb] at h
  | ok p =>
    obtain ⟨fx, st₂⟩ := p
    rcases hid : schema.attrs.id with - | nm
    · simp [parse_fx, hrb, hid] at h
    · simp [parse_fx, hrb, hid] at h
      obtain ⟨-, h₂⟩ := h
      subst h₂
      exact read_bitmap_length_le st fx st₂ hrb

/-- `parse_any` only consumes bytes. -/
def MonoAny (fuel : Nat) (schema : Schema) (st : List Nat) : Prop :=
  ∀ v st₁, parse_any fuel schema st = .ok (v, st₁) → st₁.length ≤ st.length

/-- `parse_multi` only consumes bytes. -/
def MonoMulti (fuel : Nat) (schema : Schema) (st : List Nat) : Prop :=
  ∀ v st₁, parse_multi fuel schema st = .ok (v, st₁) → st₁.length ≤ st.length

/-- `multi_loop` only consumes bytes. -/
def MonoMultiLoop (fuel : Nat) (children : List Schema)
    (result : List (String × PyVal)) (st : List Nat) : Prop :=
  ∀ v st₁, multi_loop fuel children result st = .ok (v, st₁) →
    st₁.length ≤ st.length

/-- `parse_fspec` only consumes bytes. -/
def MonoFspec (fuel : Nat) (schema : Schema) (st : List Nat) : Prop :=
  ∀ v st₁, parse_fspec fuel schema st = .ok (v, st₁) → st₁.length ≤ st.length

/-- `fspec_children_loop` only consumes bytes. -/
def MonoFspecLoop (fuel : Nat) (children : List Schema) (fspec : List Nat)
    (i : Nat) (result : List (String × PyVal)) (st : List Nat) : Prop :=
  ∀ r st₁, fspec_children_loop fuel children fspec i result st = .ok (r, st₁) →
    st₁.length ≤ st.length

/-- `parse_asterix` only consumes bytes. -/
def MonoAsterix (fuel : Nat) (schema : Schema) (st : List Nat) : Prop :=
  ∀ bs st₁, parse_asterix fuel schema st = .ok (bs, st₁) →
    st₁.length ≤ st.length

/-- A decoded block only consumes bytes. -/
def MonoBlock (fuel : Nat) (schema : Schema) (st : List Nat) : Prop :=
  ∀ blk st₁, parse_asterix_block fuel schema st = .ok (some (blk, st₁)) →
    st₁.length ≤ st.length

/-- The record loop only consumes bytes, and its final counter value equals
the initial counter plus the number of bytes it removed from the stream
(`total₂ + st₂.length = total + st.length`). -/
def MonoRecords (fuel : Nat) (sub : Schema) (st : List Nat) (total : Nat)
    (length : Nat) : Prop :=
  ∀ recs st₂ total₂,
    parse_asterix_records fuel sub st total length = .ok (recs, st₂, total₂) →
    st₂.length ≤ st.length ∧ total₂ + st₂.length = total + st.length

theorem mono_bundle :
    (∀ fuel schema st, MonoAny fuel schema st) ∧
    (∀ fuel schema st, MonoMulti fuel schema st) ∧
    (∀ fuel children result st, MonoMultiLoop fuel children result st) ∧
    (∀ fuel schema st, MonoFspec fuel schema st) ∧
    (∀ fuel children fspec i result st,
      MonoFspecLoop fuel children fspec i result st) ∧
    (∀ fuel schema st, MonoAsterix fuel schema st) ∧
    (∀ fuel schema st, MonoBlock fuel schema st) ∧
    (∀ fuel sub st total length, MonoRecords fuel sub st total length) := by
  apply parse_any.mutual_induct
  case _ =>
    intro fuel schema st htag e hp ih v st₁ h
    simp [parse_any, htag, hp] at h
  case _ =>
    intro fuel schema st htag blocks st₂ hp ih v st₁ h
    simp [parse_any, htag, hp] at h
    exact h.2 ▸ ih blocks st₂ hp
  case _ =>
    intro fuel schema st h1 htag ih v st₁ h
    simp [parse_any, h1, htag] at h
    exact ih v st₁ h
  case _ =>
    intro fuel schema st h1 h2 htag v st₁ h
    simp [parse_any, h1, h2, htag] at h
    exact parse_fx_length_le h
  case _ =>
    intro fuel schema st h1 h2 h3 htag ih v st₁ h
    simp [parse_any, h1, h2, h3, htag] at h
    exact ih v st₁ h
  case _ =>
    intro fuel schema st h1 h2 h3 h4 htag v st₁ h
    simp [parse_any, h1, h2, h3, h4, htag] at h
    exact parse_unknown_length_le h
  case _ =>
    intro fuel schema st h1 h2 h3 h4 h5 htag v st₁ h
    simp [parse_any, h1, h2, h3, h4, h5, htag] at h
    exact parse_number_length_le h
  case _ =>
    intro fuel schema st h1 h2 h3 h4 h5 h6 htag v st₁ h
    simp [parse_any, h1, h2, h3, h4, h5, h6, htag] at h
    exact parse_unknown_length_le h
  case _ =>
    intro fuel schema st h1 h2 h3 h4 h5 h6 h7 htag v st₁ h
    simp [parse_any, h1, h2, h3, h4, h5, h6, h7, htag] at h
    exact parse_unknown_length_le h
  case _ =>
    intro fuel schema st h1 h2 h3 h4 h5 h6 h7 h8 htag v st₁ h
    simp [parse_any, h1, h2, h3, h4, h5, h6, h7, h8, htag] at h
    exact parse_unknown_length_le h
  case _ =>
    intro fuel schema st h1 h2 h3 h4 h5 h6 h7 h8 h9 v st₁ h
    simp [parse_any, h1, h2, h3, h4, h5, h6, h7, h8, h9] at h
  case _ =>
    intro fuel schema st ih v st₁ h
    simp only [parse_multi] at h
    exact ih v st₁ h
  case _ =>
    intro fuel result st v st₁ h
    simp [multi_loop] at h
    obtain ⟨-, h₂⟩ := h
    subst h₂
    exact le_rfl
  case _ =>
    intro fuel result st c cs e hp ih v st₁ h
    simp [multi_loop, hp] at h
  case _ =>
    intro fuel result st c cs r st₂ hp e hd ih v st₁ h
    simp [multi_loop, hp, hd] at h
  case _ =>
    intro fuel result st c cs r st₂ hp d hd ih ihloop v st₁ h
    simp [multi_loop, hp, hd] at h
    exact le_trans (ihloop v st₁ h) (ih r st₂ hp)
  case _ =>
    intro fuel schema st e hrb v st₁ h
    simp [parse_fspec, hrb] at h
  case _ =>
    intro fuel schema st more rest₁ hrb e hloop ih v st₁ h
    simp [parse_fspec, hrb, hloop] at h
  case _ =>
    intro fuel schema st more rest₁ hrb result st₂ hloop e hchk ih v st₁ h
    simp [parse_fspec, hrb, hloop, hchk] at h
  case _ =>
    intro fuel schema st more rest₁ hrb result st₂ hloop u hchk ih v st₁ h
    simp [parse_fspec, hrb, hloop, hchk] at h
    refine le_trans ?_ (read_bitmap_length_le st more rest₁ hrb)
    exact h.2 ▸ ih result st₂ hloop
  case _ =>
    intro fuel fspec i result st r st₁ h
    simp [fspec_children_loop] at h
    obtain ⟨-, h₂⟩ := h
    subst h₂
    exact le_rfl
  case _ =>
    intro fuel fspec i result st c cs hcond e hp ih r st₁ h
    simp only [fspec_children_loop] at h
    rw [if_pos hcond, hp] at h
    simp at h
  case _ =>
    intro fuel fspec i result st c cs hcond r st₂ hp e hd ih r₁ st₁ h
    simp only [fspec_children_loop] at h
    rw [if_pos hcond, hp] at h
    simp [hd] at h
  case _ =>
    intro fuel fspec i result st c cs hcond r st₂ hp d hd ih ihloop r₁ st₁ h
    simp only [fspec_children_loop] at h
    rw [if_pos hcond, hp] at h
    simp [hd] at h
    exact le_trans (ihloop r₁ st₁ h) (ih r st₂ hp)
  case _ =>
    intro fuel fspec i result st c cs hcond ihloop r st₁ h
    simp only [fspec_children_loop] at h
    rw [if_neg hcond] at h
    exact ihloop r st₁ h
  case _ =>
    intro schema st bs st₁ h
    simp [parse_asterix] at h
  case _ =>
    intro schema st fuel₁ e hblk ihb bs st₁ h
    simp [parse_asterix, hblk] at h
  case _ =>
    intro schema st fuel₁ hblk ihb bs st₁ h
    simp [parse_asterix, hblk] at h
    obtain ⟨-, h₂⟩ := h
    subst h₂
    exact le_rfl
  case _ =>
    intro schema st fuel₁ blk st₂ hblk e hrest ihb iha bs st₁ h
    simp [parse_asterix, hblk, hrest] at h
  case _ =>
    intro schema st fuel₁ blk st₂ hblk blocks st₃ hrest ihb iha bs st₁ h
    simp [parse_asterix, hblk, hrest] at h
    refine le_trans ?_ (ihb blk st₂ hblk)
    exact h.2 ▸ iha blocks st₃ hrest
  case _ =>
    intro fuel schema blk st₁ h
    simp [parse_asterix_block] at h
  case _ =>
    intro fuel schema octet rest hfind blk st₁ h
    simp only [parse_asterix_block] at h
    split at h <;> simp_all
  case _ =>
    intro fuel schema octet sub hfind b1 b2 body e hrec ihr blk st₁ h
    simp only [parse_asterix_block] at h
    split at h
    · simp_all
    · rename_i sub₂ heq
      rw [hfind] at heq
      obtain rfl := Option.some.inj heq
      rw [hrec] at h
      simp at h
  case _ =>
    intro fuel schema octet sub hfind b1 b2 body records st₃ hrec ihr blk st₁ h
    simp only [parse_asterix_block] at h
    split at h
    · simp_all
    · rename_i sub₂ heq
      rw [hfind] at heq
      obtain rfl := Option.some.inj heq
      rw [hrec] at h
      simp at h
      have hmono := (ihr records st₃ (b1 * 256 + b2) hrec).1
      calc st₁.length ≤ body.length := h.2 ▸ hmono
        _ ≤ (octet :: b1 :: b2 :: body).length := by simp; omega
  case _ =>
    intro fuel schema octet sub hfind b1 b2 body records st₃ total hrec hne
      ihr blk st₁ h
    simp only [parse_asterix_block] at h
    split at h
    · simp_all
    · rename_i sub₂ heq
      rw [hfind] at heq
      obtain rfl := Option.some.inj heq
      rw [hrec] at h
      simp [hne] at h
  case _ =>
    intro fuel schema octet rest sub hfind hshape blk st₁ h
    rcases rest with - | ⟨b1, rest₁⟩
    · simp only [parse_asterix_block] at h
      split at h <;> simp_all
    · rcases rest₁ with - | ⟨b2, body⟩
      · simp only [parse_asterix_block] at h
        split at h <;> simp_all
      · exact absurd rfl (hshape b1 b2 body)
  case _ =>
    intro sub st total length hlt recs st₂ total₂ h
    simp [parse_asterix_records, hlt] at h
  case _ =>
    intro sub st total length hlt fuel₁ e hp ih recs st₂ total₂ h
    simp [parse_asterix_records, hlt, hp] at h
  case _ =>
    intro sub st total length hlt fuel₁ r st₁ hp e hrec ih ihr recs st₂ total₂ h
    simp [parse_asterix_records, hlt, hp, hrec] at h
  case _ =>
    intro sub st total length hlt fuel₁ r st₁ hp recs₁ st₃ total₃ hrec ih ihr
      recs st₂ total₂ h
    simp [parse_asterix_records, hlt, hp, hrec] at h
    obtain ⟨-, h₂, h₃⟩ := h
    subst h₂
    subst h₃
    have hp_le : st₁.length ≤ st.length := ih r st₁ hp
    have hr := ihr recs₁ st₃ total₃ hrec
    constructor
    · exact le_trans hr.1 hp_le
    · omega
  case _ =>
    intro fuel sub st total length hge recs st₂ total₂ h
    unfold parse_asterix_records at h
    rw [if_neg hge] at h
    simp at h
    obtain ⟨-, h₂, h₃⟩ := h
    subst h₂
    subst h₃
    omega

/-- The record-loop counter equals the bytes removed from the stream. -/
theorem parse_asterix_records_counter {fuel : Nat} {sub : Schema}
    {st : List Nat} {total L : Nat} {recs : List PyVal} {st₂ : List Nat}
    {total₂ : Nat}
    (h : parse_asterix_records fuel sub st total L = .ok (recs, st₂, total₂)) :
    st₂.length ≤ st.length ∧ total₂ + st₂.length = total + st.length :=
  mono_bundle.2.2.2.2.2.2.2 fuel sub st total L recs st₂ total₂ h

/-!  Unfolding equations for the block decoder (its `findCat` match binds an
equation for the termination proof, which blocks plain `simp` reduction). -/

theorem parse_asterix_block_nil (fuel : Nat) (schema : Schema) :
    parse_asterix_block fuel schema [] = .ok none := by
  simp [parse_asterix_block]

theorem parse_asterix_block_unknown_cat (fuel : Nat) (schema : Schema)
    (cat : Nat) (rest : List Nat) (hfind : findCat schema cat = none) :
    parse_asterix_block fuel schema (cat :: rest) =
      .error ("Unable to parse data block with unknown category " ++
        toString cat) := by
  unfold parse_asterix_block
  split
  · rfl
  · rename_i sub₂ heq
    rw [hfind] at heq
    simp at heq

theorem parse_asterix_block_cons (fuel : Nat) (schema : Schema)
    (cat b1 b2 : Nat) (body : List Nat) (sub : Schema)
    (hfind : findCat schema cat = some sub) :
    parse_asterix_block fuel schema (cat :: b1 :: b2 :: body) =
      match parse_asterix_records fuel sub body 3 (b1 * 256 + b2) with
      | .error e => .error e
      | .ok (records, st₃, total) =>
        if total = b1 * 256 + b2 then .ok (some (blockVal cat records, st₃))
        else
          .error ("Unexpected length of data block: parsed " ++
            toString total ++ ", expected " ++ toString (b1 * 256 + b2)) := by
  unfold parse_asterix_block
  split
  · rename_i heq
    rw [hfind] at heq
    simp at heq
  · rename_i sub₂ heq
    rw [hfind] at heq
    obtain rfl := Option.some.inj heq
    rfl

theorem parse_asterix_succ (fuel : Nat) (schema : Schema) (st : List Nat) :
    parse_asterix (fuel + 1) schema st =
      match parse_asterix_block fuel schema st with
      | .error e => .error e
      | .ok none => .ok ([], st)
      | .ok (some (blk, st₁)) =>
        match parse_asterix fuel schema st₁ with
        | .error e => .error e
        | .ok (blks, st₂) => .ok (blk :: blks, st₂) := by
  rw [parse_asterix]

theorem parse_asterix_records_exit (fuel : Nat) (sub : Schema) (st : List Nat)
    (total L : Nat) (h : ¬ total < L) :
    parse_asterix_records fuel sub st total L = .ok ([], st, total) := by
  unfold parse_asterix_records
  rw [if_neg h]

theorem parse_asterix_nil (fuel : Nat) (schema : Schema) :
    parse_asterix (fuel + 1) schema [] = .ok ([], []) := by
  rw [parse_asterix_succ, parse_asterix_block_nil]

/-- C1: for every data block that the block decoder completes, the bytes
consumed while decoding its records are exactly the declared length minus 3
(so the declared length is at least 3), and if the record loop ends with the
counter different from the declared length, the block decoder raises the
length-mismatch error, which `parse_asterix` propagates, aborting the whole
decode. -/
theorem block_records_length_exact (fuel : Nat) (schema : Schema)
    (cat b1 b2 : Nat) (body : List Nat) (sub : Schema) (recs : List PyVal)
    (st₃ : List Nat) (total : Nat)
    (hfind : findCat schema cat = some sub)
    (hrec : parse_asterix_records fuel sub body 3 (b1 * 256 + b2) =
      .ok (recs, st₃, total)) :
    (total = b1 * 256 + b2 →
      parse_asterix_block fuel schema (cat :: b1 :: b2 :: body) =
        .ok (some (blockVal cat recs, st₃)) ∧
      st₃.length ≤ body.length ∧
      body.length - st₃.length = (b1 * 256 + b2) - 3 ∧
      3 ≤ b1 * 256 + b2) ∧
    (total ≠ b1 * 256 + b2 →
      parse_asterix_block fuel schema (cat :: b1 :: b2 :: body) =
        .error ("Unexpected length of data block: parsed " ++ toString total ++
          ", expected " ++ toString (b1 * 256 + b2)) ∧
      parse_asterix (fuel + 1) schema (cat :: b1 :: b2 :: body) =
        .error ("Unexpected length of data block: parsed " ++ toString total ++
          ", expected " ++ toString (b1 * 256 + b2))) := by
  have hcount := parse_asterix_records_counter hrec
  constructor
  · intro heq
    subst heq
    refine ⟨?_, hcount.1, by omega, by omega⟩
    rw [parse_asterix_block_cons fuel schema cat b1 b2 body sub hfind, hrec]
    simp
  · intro hne
    have hblk : parse_asterix_block fuel schema (cat :: b1 :: b2 :: body) =
        .error ("Unexpected length of data block: parsed " ++ toString total ++
          ", expected " ++ toString (b1 * 256 + b2)) := by
      rw [parse_asterix_block_cons fuel schema cat b1 b2 body sub hfind, hrec]
      simp [hne]
    exact ⟨hblk, by rw [parse_asterix_succ, hblk]⟩

/-- Category-001 placeholder node used by concrete test decodes. -/
def wUnknownSub : Schema :=
  .mk tagUnknown ⟨some "cat001", some 1, none, none, none⟩ []

/-- Root schema with the single category `cat001` for concrete test decodes. -/
def wRoot : Schema := .mk tagSchema ⟨none, none, none, none, none⟩ [wUnknownSub]

/-- Root schema with no categories at all. -/
def wEmptyRoot : Schema := .mk tagSchema ⟨none, none, none, none, none⟩ []

theorem wRoot_findCat : findCat wRoot 1 = some wUnknownSub := by
  simp [findCat, wRoot, wUnknownSub, Schema.children, Schema.attrs, catKey]
  decide

theorem wRoot_records :
    parse_asterix_records 1 wUnknownSub [171] 3 4 =
      .ok ([.dict [("cat001", .str "UNKNOWN ab")]], [], 4) := by
  simp [parse_asterix_records, parse_any, wUnknownSub, Schema.tag, tagUnknown,
    tagSchema, tagFspec, tagFx, tagMulti, tagList, tagNumber, tagBool, tagEnum,
    parse_unknown, Schema.attrs, hexdump, byteHex, Nat.toDigits,
    Nat.toDigitsCore, Nat.digitChar]
  decide

theorem block_records_length_exact_witness :
    parse_asterix_block 1 wRoot [1, 0, 4, 171] =
      .ok (some (blockVal 1 [.dict [("cat001", .str "UNKNOWN ab")]], [])) ∧
    ([171] : List Nat).length - ([] : List Nat).length = 0 * 256 + 4 - 3 ∧
    3 ≤ 0 * 256 + 4 := by
  have h := block_records_length_exact 1 wRoot 1 0 4 [171] wUnknownSub
    [.dict [("cat001", .str "UNKNOWN ab")]] [] 4 wRoot_findCat wRoot_records
  have h1 := h.1 (by norm_num)
  exact ⟨h1.1, h1.2.2.1, h1.2.2.2⟩

/-- C7: a category byte whose `cat%03d` key is not among the root's children
aborts the whole decode with the unknown-category error, before any record of
that block is produced. -/
theorem unknown_category_aborts (fuel : Nat) (schema : Schema) (cat : Nat)
    (rest : List Nat) (hfind : findCat schema cat = none) :
    parse_asterix (fuel + 1) schema (cat :: rest) =
      .error ("Unable to parse data block with unknown category " ++
        toString cat) := by
  rw [parse_asterix_succ, parse_asterix_block_unknown_cat fuel schema cat rest hfind]

theorem unknown_category_aborts_witness :
    parse_asterix 1 wEmptyRoot [7, 0, 3] =
      .error ("Unable to parse data block with unknown category " ++
        toString 7) :=
  unknown_category_aborts 0 wEmptyRoot 7 [0, 3]
    (by simp [findCat, wEmptyRoot, Schema.children])

/-- C8: an exhausted byte source at the start of a block read (zero bytes
available for the category tag) ends the decode cleanly and successfully,
returning the data blocks accumulated so far (here stated for the loop in its
recursive form: the empty stream yields the empty remainder of the block
list, so every caller returns exactly the blocks it has already decoded). -/
theorem empty_stream_clean_end (fuel : Nat) (schema : Schema) :
    parse_asterix (fuel + 1) schema [] = .ok ([], []) :=
  parse_asterix_nil fuel schema

/-- C10: a block whose declared length is exactly 3 (header only) yields a
data block with the given category and no records, and decoding continues
with the next block; a declared length less than 3 is a fatal
length-mismatch error. -/
theorem header_only_block (fuel : Nat) (schema : Schema) (cat : Nat)
    (rest : List Nat) (sub : Schema) (hfind : findCat schema cat = some sub) :
    (parse_asterix (fuel + 1) schema (cat :: 0 :: 3 :: rest) =
      (parse_asterix fuel schema rest).map
        (fun p => (blockVal cat [] :: p.1, p.2))) ∧
    (∀ b1 b2 : Nat, b1 * 256 + b2 < 3 →
      parse_asterix (fuel + 1) schema (cat :: b1 :: b2 :: rest) =
        .error ("Unexpected length of data block: parsed " ++ toString 3 ++
          ", expected " ++ toString (b1 * 256 + b2))) := by
  constructor
  · rw [parse_asterix_succ, parse_asterix_block_cons fuel schema cat 0 3 rest sub hfind,
      parse_asterix_records_exit fuel sub rest 3 (0 * 256 + 3) (by norm_num)]
    cases h : parse_asterix fuel schema rest with
    | error e => simp [h, Except.map]
    | ok p => simp [h, Except.map]
  · intro b1 b2 hlt
    rw [parse_asterix_succ, parse_asterix_block_cons fuel schema cat b1 b2 rest sub hfind,
      parse_asterix_records_exit fuel sub rest 3 (b1 * 256 + b2) (by omega)]
    have h3 : ¬((3 : Nat) = b1 * 256 + b2) := by omega
    simp [h3]

theorem header_only_block_witness :
    parse_asterix 2 wRoot [1, 0, 3] = .ok ([blockVal 1 []], []) ∧
    parse_asterix 2 wRoot [1, 0, 2] =
      .error ("Unexpected length of data block: parsed " ++ toString 3 ++
        ", expected " ++ toString (0 * 256 + 2)) := by
  have h := header_only_block 1 wRoot 1 [] wUnknownSub wRoot_findCat
  constructor
  · rw [h.1, parse_asterix_nil]
    rfl
  · exact h.2 0 2 (by norm_num)

/-- C5: a node carrying `failure_info` fails immediately with that message,
whatever its `octets` attribute holds (even a missing one), and for every
stream alike — the error is raised before anything is read, so the stream is
untouched. -/
theorem failure_info_fatal (tag : String) (attrs : Attrs)
    (children : List Schema) (st : List Nat) (msg : String)
    (hfi : attrs.failure_info = some msg) :
    parse_unknown (.mk tag attrs children) st =
      .error ("Unknown item of unknown size: " ++ msg) := by
  simp [parse_unknown, Schema.attrs, hfi]

theorem failure_info_fatal_witness :
    parse_unknown (.mk tagUnknown ⟨some "x", none, none, none, some "forbidden"⟩ [])
      [1, 2, 3] = .error ("Unknown item of unknown size: " ++ "forbidden") :=
  failure_info_fatal tagUnknown ⟨some "x", none, none, none, some "forbidden"⟩
    [] [1, 2, 3] "forbidden" rfl

/-- C6: a placeholder node without `failure_info` reads exactly `octets`
bytes, returns their lowercase space-separated two-digit hex dump under the
node's `id`, tagged "UNKNOWN " (unresolved), and succeeds, leaving the rest
of the stream for subsequent fields. -/
theorem unknown_hexdump_nonfatal (tag : String) (attrs : Attrs)
    (children : List Schema) (st : List Nat) (n : Nat) (nm : String)
    (hfi : attrs.failure_info = none) (hoc : attrs.octets = some n)
    (hid : attrs.id = some nm) :
    parse_unknown (.mk tag attrs children) st =
      .ok (.dict [(nm, .str ("UNKNOWN " ++ hexdump (st.take n)))],
        st.drop n) := by
  simp [parse_unknown, Schema.attrs, hfi, hoc, hid]

theorem unknown_hexdump_nonfatal_witness :
    parse_unknown (.mk tagUnknown ⟨some "u", some 2, none, none, none⟩ [])
      [171, 205, 99] = .ok (.dict [("u", .str "UNKNOWN ab cd")], [99]) := by
  have h := unknown_hexdump_nonfatal tagUnknown
    ⟨some "u", some 2, none, none, none⟩ [] [171, 205, 99] 2 "u" rfl rfl rfl
  have hs : "UNKNOWN " ++ hexdump (([171, 205, 99] : List Nat).take 2) =
      "UNKNOWN ab cd" := by decide
  rw [hs] at h
  have hd : (([171, 205, 99] : List Nat).take 2) = [171, 205] := rfl
  have hdr : (([171, 205, 99] : List Nat).drop 2) = [99] := rfl
  rw [hdr] at h
  exact h

/-- C3: the numeric decoder reads exactly `octets` bytes, big-endian
unsigned; the raw integer is divided by `2 ^ rshift` when `rshift` is
present and then multiplied by `factor` when `factor` is present, in that
order; with neither attribute the raw integer is returned unchanged (as an
int, not a float); in particular two octets `0x00 0x0A` with `rshift = 1`
and `factor = 2.0` give the field value `10.0`. -/
theorem number_scaling_order (tag : String) (children : List Schema)
    (st : List Nat) (n : Nat) (nm : String) (r : Nat) (f : ℚ)
    (fi : Option String) :
    (parse_number (.mk tag ⟨some nm, some n, some r, some f, fi⟩ children) st =
      .ok (.dict [(nm, .float ((bytesToNat (st.take n) : ℚ) * (1 / 2 ^ r) * f))],
        st.drop n)) ∧
    (parse_number (.mk tag ⟨some nm, some n, none, none, fi⟩ children) st =
      .ok (.dict [(nm, .int (bytesToNat (st.take n)))], st.drop n)) ∧
    (∀ rest : List Nat,
      parse_number (.mk tag ⟨some nm, some 2, some 1, some 2, fi⟩ children)
        (0 :: 10 :: rest) = .ok (.dict [(nm, .float 10)], rest)) ∧
    (∀ rest : List Nat,
      parse_number (.mk tag ⟨some nm, some 2, none, none, fi⟩ children)
        (0 :: 10 :: rest) = .ok (.dict [(nm, .int 10)], rest)) := by
  have hb : bytesToNat ([0, 10] : List Nat) = 10 := by decide
  refine ⟨rfl, rfl, ?_, ?_⟩
  · intro rest
    simp [parse_number, Schema.attrs]
    norm_num [hb]
  · intro rest
    simp [parse_number, Schema.attrs]
    exact hb

/-- C9: the dispatcher sends `list`, `bool` (spelled "boolean" in the spec)
and `enum` nodes to exactly the decoder used for `unknown` nodes: the
dispatched decode is the very same computation — same stream consumption,
same fields, same failures. -/
theorem dispatcher_list_bool_enum_as_unknown (fuel : Nat) (schema : Schema)
    (st : List Nat)
    (h : schema.tag = tagList ∨ schema.tag = tagBool ∨ schema.tag = tagEnum) :
    parse_any fuel schema st = parse_unknown schema st := by
  rcases h with h | h | h <;>
    simp [parse_any, h, tagList, tagSchema, tagFspec, tagFx, tagMulti,
      tagNumber, tagBool, tagEnum]

theorem dispatcher_list_bool_enum_as_unknown_witness :
    (parse_any 0 (.mk tagList ⟨some "x", some 1, none, none, none⟩ []) [5, 6] =
      parse_unknown (.mk tagList ⟨some "x", some 1, none, none, none⟩ []) [5, 6]) ∧
    (parse_any 0 (.mk tagBool ⟨some "x", some 1, none, none, none⟩ []) [5, 6] =
      parse_unknown (.mk tagBool ⟨some "x", some 1, none, none, none⟩ []) [5, 6]) ∧
    (parse_any 0 (.mk tagEnum ⟨some "x", some 1, none, none, none⟩ []) [5, 6] =
      parse_unknown (.mk tagEnum ⟨some "x", some 1, none, none, none⟩ []) [5, 6]) :=
  ⟨dispatcher_list_bool_enum_as_unknown 0 _ [5, 6] (Or.inl rfl),
   dispatcher_list_bool_enum_as_unknown 0 _ [5, 6] (Or.inr (Or.inl rfl)),
   dispatcher_list_bool_enum_as_unknown 0 _ [5, 6] (Or.inr (Or.inr rfl))⟩

/-!  Helper lemmas about the presence bitmap, used by the two FSPEC claims. -/

theorem bits71_explicit (octet : Nat) :
    bits71 octet = [(octet >>> 7) &&& 1, (octet >>> 6) &&& 1,
      (octet >>> 5) &&& 1, (octet >>> 4) &&& 1, (octet >>> 3) &&& 1,
      (octet >>> 2) &&& 1, (octet >>> 1) &&& 1] := by
  have hr : List.range 7 = [0, 1, 2, 3, 4, 5, 6] := rfl
  simp [bits71, hr]

theorem bits71_176 : bits71 176 = [1, 0, 1, 1, 0, 0, 0] := by decide

theorem read_bitmap_176 (rest : List Nat) :
    read_bitmap (176 :: rest) = .ok ([1, 0, 1, 1, 0, 0, 0], rest) := by
  simp only [read_bitmap]
  rw [if_pos (by decide : (176 : Nat) &&& 1 = 0), bits71_176]

/-- Children at positions 4 and beyond are skipped under the presence bitmap
of the single octet `0b10110000`: positions 4..6 carry bit 0 and positions
7 and beyond are outside the bitmap. -/
theorem fspec_loop_skip4 (fuel : Nat) (cs : List Schema) (i : Nat)
    (result : List (String × PyVal)) (st : List Nat) (h4 : 4 ≤ i) :
    fspec_children_loop fuel cs [1, 0, 1, 1, 0, 0, 0] i result st =
      .ok (result, st) := by
  induction cs generalizing i with
  | nil => simp [fspec_children_loop]
  | cons c cs ih =>
    have hcond : ¬(i < ([1, 0, 1, 1, 0, 0, 0] : List Nat).length ∧
        ([1, 0, 1, 1, 0, 0, 0] : List Nat).getD i 0 = 1) := by
      rintro ⟨h1, h2⟩
      simp at h1
      interval_cases i <;> simp_all
    simp only [fspec_children_loop]
    rw [if_neg hcond]
    exact ih (i + 1) (by omega)

theorem fspec_extra_check_ge4 (m : Nat) :
    fspec_extra_check [1, 0, 1, 1, 0, 0, 0] (m + 4) = .ok () := by
  rcases m with - | - | - | m
  · simp [fspec_extra_check]
  · simp [fspec_extra_check]
  · simp [fspec_extra_check]
  · unfold fspec_extra_check
    rw [dif_neg (by simp only [List.length_cons, List.length_nil]; omega)]

/-- C2: each bitmap octet contributes its bits 7 down to 1, bit 7 first, and
another octet is read exactly when bit 0 is 1; in particular for the single
octet `0b10110000` (= 176, extension bit 0) over a node with at least four
children, the presence sequence is `[1,0,1,1,0,0,0]`, so children 0, 2 and 3
are decoded through the dispatcher, in order, child 1 and all later children
are skipped, and their merged fields are returned. -/
theorem fspec_bit_order_and_presence_dispatch (fuel : Nat) (tag : String)
    (attrs : Attrs) (c0 c1 c2 c3 : Schema) (cs : List Schema)
    (rest st : List Nat) (octet : Nat) :
    (octet &&& 1 = 0 →
      read_bitmap (octet :: st) =
        .ok ([(octet >>> 7) &&& 1, (octet >>> 6) &&& 1, (octet >>> 5) &&& 1,
          (octet >>> 4) &&& 1, (octet >>> 3) &&& 1, (octet >>> 2) &&& 1,
          (octet >>> 1) &&& 1], st)) ∧
    (octet &&& 1 = 1 →
      read_bitmap (octet :: st) =
        match read_bitmap st with
        | .error e => .error e
        | .ok (more, st₁) =>
          .ok ([(octet >>> 7) &&& 1, (octet >>> 6) &&& 1, (octet >>> 5) &&& 1,
            (octet >>> 4) &&& 1, (octet >>> 3) &&& 1, (octet >>> 2) &&& 1,
            (octet >>> 1) &&& 1] ++ more, st₁)) ∧
    (parse_fspec fuel (.mk tag attrs (c0 :: c1 :: c2 :: c3 :: cs))
        (176 :: rest) =
      match parse_any fuel c0 rest with
      | .error e => .error e
      | .ok (v0, s1) =>
        match asDict v0 with
        | .error e => .error e
        | .ok d0 =>
          match parse_any fuel c2 s1 with
          | .error e => .error e
          | .ok (v2, s2) =>
            match asDict v2 with
            | .error e => .error e
            | .ok d2 =>
              match parse_any fuel c3 s2 with
              | .error e => .error e
              | .ok (v3, s3) =>
                match asDict v3 with
                | .error e => .error e
                | .ok d3 =>
                  .ok (.dict (dictUpdate (dictUpdate (dictUpdate [] d0) d2) d3),
                    s3)) := by
  refine ⟨?_, ?_, ?_⟩
  · intro h0
    simp only [read_bitmap]
    rw [if_pos h0, bits71_explicit]
  · intro h1
    simp only [read_bitmap]
    rw [if_neg (by omega), bits71_explicit]
  · simp only [parse_fspec, Schema.children, read_bitmap_176]
    simp only [fspec_children_loop]
    norm_num
    cases h0 : parse_any fuel c0 rest with
    | error e => simp [h0]
    | ok p0 =>
      obtain ⟨v0, s1⟩ := p0
      simp only [h0]
      cases hd0 : asDict v0 with
      | error e => simp [hd0]
      | ok d0 =>
        simp only [hd0]
        cases h2 : parse_any fuel c2 s1 with
        | error e => simp [h2]
        | ok p2 =>
          obtain ⟨v2, s2⟩ := p2
          simp only [h2]
          cases hd2 : asDict v2 with
          | error e => simp [hd2]
          | ok d2 =>
            simp only [hd2]
            cases h3 : parse_any fuel c3 s2 with
            | error e => simp [h3]
            | ok p3 =>
              obtain ⟨v3, s3⟩ := p3
              simp only [h3]
              cases hd3 : asDict v3 with
              | error e => simp [hd3]
              | ok d3 =>
                simp only [hd3]
                rw [fspec_loop_skip4 fuel cs 4 _ s3 (by norm_num)]
                rw [show cs.length + 1 + 1 + 1 + 1 = cs.length + 4 from by omega,
                  fspec_extra_check_ge4 cs.length]

/-- One-octet placeholder node used in concrete FSPEC decodes. -/
def wU (nm : String) : Schema :=
  .mk tagUnknown ⟨some nm, some 1, none, none, none⟩ []

/-- FSPEC node with four one-octet children, for concrete decodes. -/
def wFspec4 : Schema :=
  .mk tagFspec ⟨some "f", none, none, none, none⟩
    [wU "a", wU "b", wU "c", wU "d"]

theorem fspec_bit_order_and_presence_dispatch_witness :
    read_bitmap [176, 5, 6, 7] = .ok ([1, 0, 1, 1, 0, 0, 0], [5, 6, 7]) ∧
    parse_fspec 1 wFspec4 [176, 5, 6, 7] =
      .ok (.dict [("a", .str "UNKNOWN 05"), ("c", .str "UNKNOWN 06"),
        ("d", .str "UNKNOWN 07")], []) := by
  have h := fspec_bit_order_and_presence_dispatch 1 tagFspec
    ⟨some "f", none, none, none, none⟩ (wU "a") (wU "b") (wU "c") (wU "d") []
    [5, 6, 7] [5, 6, 7] 176
  constructor
  · have h1 := h.1 (by decide)
    norm_num at h1
    exact h1
  · have h2 := h.2.2
    simp only [wFspec4]
    rw [h2]
    simp [parse_any, wU, Schema.tag, Schema.attrs, tagUnknown, tagSchema,
      tagFspec, tagFx, tagMulti, tagList, tagNumber, tagBool, tagEnum,
      parse_unknown, asDict, hexdump, byteHex, Nat.toDigits, Nat.toDigitsCore,
      Nat.digitChar, dictUpdate, dictInsert]
    decide

/-!  The `for i in xrange(len(schema_children), len(fspec))` check, in both
outcomes. -/

theorem fspec_extra_check_ok_of_zero (fspec : List Nat) :
    ∀ k i, fspec.length - i ≤ k →
      (∀ j, i ≤ j → j < fspec.length → fspec.getD j 0 = 0) →
      fspec_extra_check fspec i = .ok () := by
  intro k
  induction k with
  | zero =>
    intro i hk hz
    unfold fspec_extra_check
    rw [dif_neg (by omega)]
  | succ k ih =>
    intro i hk hz
    unfold fspec_extra_check
    by_cases hlt : i < fspec.length
    · rw [dif_pos hlt, if_neg (by rw [hz i le_rfl hlt]; omega)]
      exact ih (i + 1) (by omega) (fun j hj hjl => hz j (by omega) hjl)
    · rw [dif_neg hlt]

theorem fspec_extra_check_error_of_one (fspec : List Nat) :
    ∀ k i j, fspec.length - i ≤ k → i ≤ j → j < fspec.length →
      fspec.getD j 0 = 1 →
      ∃ msg, fspec_extra_check fspec i = .error msg := by
  intro k
  induction k with
  | zero => intro i j hk hij hjl hbit; omega
  | succ k ih =>
    intro i j hk hij hjl hbit
    have hlt : i < fspec.length := by omega
    unfold fspec_extra_check
    rw [dif_pos hlt]
    by_cases hbi : fspec.getD i 0 = 1
    · rw [if_pos hbi]
      exact ⟨_, rfl⟩
    · rw [if_neg hbi]
      have hne : i ≠ j := fun hij₂ => hbi (hij₂ ▸ hbit)
      exact ih (i + 1) j (by omega) (by omega) hjl hbit

/-- C4: when the presence sequence is longer than the child list and the
present children decoded successfully, a set bit at any position with no
corresponding child makes `parse_fspec` fail (the unknown-FRN error), while
a presence sequence whose extra positions are all 0 is accepted and the
decode succeeds with the fields of the declared children. -/
theorem fspec_extra_bits (fuel : Nat) (tag : String) (attrs : Attrs)
    (children : List Schema) (st st₁ : List Nat) (fspec : List Nat)
    (result : List (String × PyVal)) (st₂ : List Nat)
    (hrb : read_bitmap st = .ok (fspec, st₁))
    (hloop : fspec_children_loop fuel children fspec 0 [] st₁ =
      .ok (result, st₂))
    (hlen : children.length < fspec.length) :
    ((∃ j, children.length ≤ j ∧ j < fspec.length ∧ fspec.getD j 0 = 1) →
      ∃ msg, parse_fspec fuel (.mk tag attrs children) st = .error msg) ∧
    ((∀ j, children.length ≤ j → j < fspec.length → fspec.getD j 0 = 0) →
      parse_fspec fuel (.mk tag attrs children) st =
        .ok (.dict result, st₂)) := by
  constructor
  · rintro ⟨j, hj1, hj2, hj3⟩
    obtain ⟨msg, hc⟩ := fspec_extra_check_error_of_one fspec fspec.length
      children.length j (by omega) hj1 hj2 hj3
    exact ⟨msg, by simp only [parse_fspec, Schema.children, hrb, hloop, hc]⟩
  · intro hz
    have hok := fspec_extra_check_ok_of_zero fspec fspec.length
      children.length (by omega) hz
    simp only [parse_fspec, Schema.children, hrb, hloop, hok]

theorem fspec_extra_bits_witness :
    (∃ msg, parse_fspec 1 (.mk tagFspec ⟨some "f", none, none, none, none⟩ [])
      [128] = .error msg) ∧
    parse_fspec 1 (.mk tagFspec ⟨some "f", none, none, none, none⟩ []) [0] =
      .ok (.dict [], []) := by
  have h128 := fspec_extra_bits 1 tagFspec ⟨some "f", none, none, none, none⟩
    [] [128] [] [1, 0, 0, 0, 0, 0, 0] [] [] (by rfl)
    (by simp [fspec_children_loop]) (by norm_num)
  have h0 := fspec_extra_bits 1 tagFspec ⟨some "f", none, none, none, none⟩
    [] [0] [] [0, 0, 0, 0, 0, 0, 0] [] [] (by rfl)
    (by simp [fspec_children_loop]) (by norm_num)
  refine ⟨h128.1 ⟨0, by norm_num, by norm_num, by decide⟩, h0.2 ?_⟩
  intro j hj hjl
  rcases j with - | - | - | - | - | - | - | j <;> simp [List.getD]

end Asterix
